import Mathlib

/-!
# Verification of the cupcake/jsonschema validator

A shallow embedding of the Go sources `jsonschema.go` and `utils.go` of the
cupcake/jsonschema repository, together with theorems settling the frozen
claims about its specification.

Modelling conventions:

* Decoded Go `interface` values (instances as well as raw schema
  fragments) are modelled by the inductive `GoValue`.  JSON objects decoded
  into Go maps are modelled as association lists; the list order models the
  iteration order Go happens to choose for a `range` loop over the map (the
  Go specification leaves that order undefined and the runtime randomizes
  it, which matters for the determinism claim).
* `json.Number` is a string type in Go and is modelled by the literal it
  carries.  Parsed numeric values (`strconv.ParseFloat`) are modelled as
  exact decimals `mant * 10 ^ exp10` (`JsonNum`); comparisons on them are
  exact rational comparisons.  Every numeric literal appearing in a theorem
  below is exactly representable as a `float64`, for which the Go `float64`
  comparisons agree with the exact ones, so the model is faithful on all
  inputs used here.  `float64` instance values are likewise modelled as
  exact decimals.
* The Go `int64` type is modelled by `Int`.  The only arithmetic performed on it by
  the embedded code is comparison and the remainder `%` (modelled by
  `Int.tmod`, which truncates toward zero exactly as Go does), so no
  overflow reduction is needed.
* Fallible Go code (`error` returns) is modelled with `Except`/`Option`; a
  run-time panic (division by zero in `multipleOf`) is modelled by `none`.
-/

/-- `ValidationError` from jsonschema.go: a single human-readable
description. -/
structure ValidationError where
  Description : String
deriving DecidableEq, Repr

/-- An exact decimal number `mant * 10 ^ exp10`, the model of a parsed
`json.Number` / `float64` value. -/
structure JsonNum where
  mant : Int
  exp10 : Int
deriving DecidableEq, Repr

/-- Bring two decimals to a common power of ten so their mantissas compare
like the represented values. -/
def jnScaled (a b : JsonNum) : Int × Int :=
  if b.exp10 ≤ a.exp10 then
    (a.mant * 10 ^ (a.exp10 - b.exp10).toNat, b.mant)
  else
    (a.mant, b.mant * 10 ^ (b.exp10 - a.exp10).toNat)

/-- Exact `>` on decimal values (models Go `float64` comparison on exactly
representable values). -/
def jnGt (a b : JsonNum) : Bool := decide ((jnScaled a b).2 < (jnScaled a b).1)

/-- Exact `<` on decimal values. -/
def jnLt (a b : JsonNum) : Bool := decide ((jnScaled a b).1 < (jnScaled a b).2)

/-- Exact `==` on decimal values. -/
def jnEq (a b : JsonNum) : Bool := decide ((jnScaled a b).1 = (jnScaled a b).2)

/-- The Go conversion `float64(n)` of an `int64`, exact for all values used in
this development (Go rounds only beyond `2^53`, which never occurs here). -/
def jnOfInt (n : Int) : JsonNum := ⟨n, 0⟩

/-- A decoded Go interface value: the result of decoding JSON with
`encoding/json` (`UseNumber` enabled), plus the extra numeric source types
`normalizeNumber` accepts.  `vInt` models `int`/`int8`/`int16`/`int32`/
`int64` (whose conversion to `int64` is the identity on values),
`vUintSmall` models `uint8`/`uint16`/`uint32`, `vFloat32`/`vFloat` model
`float32`/`float64` values, and `vNumber` carries a `json.Number` literal. -/
inductive GoValue where
  | vNull
  | vBool (b : Bool)
  | vStr (s : String)
  | vInt (n : Int)
  | vUintSmall (n : Nat)
  | vUint64 (n : Nat)
  | vFloat32 (f : JsonNum)
  | vFloat (f : JsonNum)
  | vNumber (lit : String)
  | vArr (elems : List GoValue)
  | vObj (kvs : List (String × GoValue))

/-- Take the leading decimal digits of a character list. -/
def takeDigits : List Char → List Char × List Char
  | [] => ([], [])
  | c :: rest =>
    if c.isDigit then
      let p := takeDigits rest
      (c :: p.1, p.2)
    else ([], c :: rest)

/-- Numeric value of a digit string. -/
def digitsVal (cs : List Char) : Nat :=
  cs.foldl (fun acc c => acc * 10 + (c.toNat - 48)) 0

/-- Model of `json.Number.Int64` (`strconv.ParseInt(s, 10, 64)`): an
optional sign followed by digits, rejected when the value leaves the signed
64-bit range. -/
def jsonInt64? (s : String) : Option Int :=
  let cs := s.data
  let p :=
    match cs with
    | '-' :: r => (true, r)
    | '+' :: r => (false, r)
    | _ => (false, cs)
  let d := takeDigits p.2
  if d.1.isEmpty ∨ ¬ d.2.isEmpty then none
  else
    let v : Int := if p.1 then -(digitsVal d.1 : Int) else (digitsVal d.1 : Int)
    if v < -(2 ^ 63) ∨ 2 ^ 63 - 1 < v then none else some v

/-- Model of `json.Number.Float64` (`strconv.ParseFloat(s, 64)`) on decimal
literals: optional sign, integer digits, optional fraction, optional
exponent.  The result is the exact decimal value; Go rounds it to the
nearest `float64`, which is the identity on every literal used in this
development. -/
def jsonFloat? (s : String) : Option JsonNum :=
  let cs := s.data
  let sg :=
    match cs with
    | '-' :: r => (true, r)
    | '+' :: r => (false, r)
    | _ => (false, cs)
  let ipr := takeDigits sg.2
  let fpr :=
    match ipr.2 with
    | '.' :: r => takeDigits r
    | _ => ([], ipr.2)
  if ipr.1.isEmpty ∧ fpr.1.isEmpty then none
  else
    let mant : Nat := digitsVal ipr.1 * 10 ^ fpr.1.length + digitsVal fpr.1
    let m : Int := if sg.1 then -(mant : Int) else (mant : Int)
    match fpr.2 with
    | [] => some ⟨m, -(fpr.1.length : Int)⟩
    | c :: r =>
      if c = 'e' ∨ c = 'E' then
        let esg :=
          match r with
          | '-' :: r2 => (true, r2)
          | '+' :: r2 => (false, r2)
          | _ => (false, r)
        let ed := takeDigits esg.2
        if ed.1.isEmpty ∨ ¬ ed.2.isEmpty then none
        else
          let e : Int :=
            if esg.1 then -(digitsVal ed.1 : Int) else (digitsVal ed.1 : Int)
          some ⟨m, e - (fpr.1.length : Int)⟩
      else none

/-- `normalizeNumber` from utils.go (first file): canonicalizes the Go
numeric types onto `int64`/`float64`.  Every `uint64` input is rejected with
an error (the code sets `err` in the `uint64` case unconditionally); any
value of an unlisted type falls through unchanged. -/
def normalizeNumber (v : GoValue) : Except String GoValue :=
  match v with
  | .vFloat32 f => .ok (.vFloat f)
  | .vFloat f => .ok (.vFloat f)
  | .vInt n => .ok (.vInt n)
  | .vUintSmall n => .ok (.vInt (n : Int))
  | .vUint64 _ => .error "uint64 is not a supported type."
  | w => .ok w

/-- The `maximum` keyword validator (utils.go lines 81-84): an embedded
`json.Number` literal plus the `exclusive` flag read from the sibling
`exclusiveMaximum` fragment at link time. -/
structure maximum where
  Number : String
  exclusive : Bool

/-- `fmt` prints a `maximum`/`minimum` through the promoted
`json.Number.String` method, i.e. as the literal itself. -/
def maximum.goString (m : maximum) : String := m.Number

/-- `maximum.isLargerThanFloat` (utils.go lines 122-128).  `none` models a
non-nil `error` return. -/
def maximum.isLargerThanFloat (m : maximum) (n : JsonNum) : Option Bool :=
  match jsonFloat? m.goString with
  | none => none
  | some mx => some (jnGt mx n || (!m.exclusive && jnEq mx n))

/-- `maximum.isLargerThanInt` (utils.go lines 110-120): integer comparison
when the literal has no decimal point, otherwise the float path on
`float64(n)`.  A `ParseInt` failure is returned as an error (`none`). -/
def maximum.isLargerThanInt (m : maximum) (n : Int) : Option Bool :=
  if ¬ (m.goString.data.contains '.') then
    match jsonInt64? m.goString with
    | none => none
    | some mx => some (decide (n < mx) || (!m.exclusive && decide (mx = n)))
  else m.isLargerThanFloat (jnOfInt n)

/-- `maximum.Validate` (utils.go lines 86-108). -/
def maximum.Validate (m : maximum) (v : GoValue) : List ValidationError :=
  match normalizeNumber v with
  | .error msg => [⟨msg⟩]
  | .ok w =>
    match w with
    | .vInt n =>
      match m.isLargerThanInt n with
      | none => []
      | some isLarger =>
        if !isLarger then [⟨"Value must be smaller than " ++ m.goString ++ "."⟩] else []
    | .vFloat f =>
      match m.isLargerThanFloat f with
      | none => []
      | some isLarger =>
        if !isLarger then [⟨"Value must be smaller than " ++ m.goString ++ "."⟩] else []
    | _ => []

/-- `maximum.SetSchema` (utils.go lines 130-138): reads the sibling raw
fragment `exclusiveMaximum`; a non-boolean value leaves the flag `false`
(the `json.Unmarshal` error is ignored). -/
def maximum.SetSchema (m : maximum) (v : List (String × GoValue)) : maximum :=
  match List.lookup "exclusiveMaximum" v with
  | some (.vBool b) => { m with exclusive := b }
  | _ => m

/-- The `minimum` keyword validator (utils.go lines 144-147, the revision
integrated with `SetSchema`, which the spec declares authoritative). -/
structure minimum where
  Number : String
  exclusive : Bool

/-- Promoted `json.Number.String`. -/
def minimum.goString (m : minimum) : String := m.Number

/-- `minimum.isLargerThanFloat` (utils.go lines 185-191). -/
def minimum.isLargerThanFloat (m : minimum) (n : JsonNum) : Option Bool :=
  match jsonFloat? m.goString with
  | none => none
  | some mn => some (jnGt mn n || (!m.exclusive && jnEq mn n))

/-- `minimum.isLargerThanInt` (utils.go lines 173-183).  Unlike `maximum`,
a `ParseInt` failure here returns `(false, nil)`, i.e. `some false`. -/
def minimum.isLargerThanInt (m : minimum) (n : Int) : Option Bool :=
  if ¬ (m.goString.data.contains '.') then
    match jsonInt64? m.goString with
    | none => some false
    | some mn => some (decide (n < mn) || (!m.exclusive && decide (mn = n)))
  else m.isLargerThanFloat (jnOfInt n)

/-- `minimum.Validate` (utils.go lines 149-171): note that the error branch
fires when `isLarger` is TRUE, with the same boundary formula as `maximum`
(`min > n || !exclusive && min == n`). -/
def minimum.Validate (m : minimum) (v : GoValue) : List ValidationError :=
  match normalizeNumber v with
  | .error msg => [⟨msg⟩]
  | .ok w =>
    match w with
    | .vInt n =>
      match m.isLargerThanInt n with
      | none => []
      | some isLarger =>
        if isLarger then [⟨"Value must be larger than " ++ m.goString ++ "."⟩] else []
    | .vFloat f =>
      match m.isLargerThanFloat f with
      | none => []
      | some isLarger =>
        if isLarger then [⟨"Value must be larger than " ++ m.goString ++ "."⟩] else []
    | _ => []

/-- `minimum.SetSchema` (utils.go lines 193-201): looks up the sibling key
spelled `"exclusiveminimum"`, exactly as in the source (all lowercase); a
non-boolean value leaves the flag `false`. -/
def minimum.SetSchema (m : minimum) (v : List (String × GoValue)) : minimum :=
  match List.lookup "exclusiveminimum" v with
  | some (.vBool b) => { m with exclusive := b }
  | _ => m

/-- `type multipleOf int64` (utils.go line 207). -/
abbrev multipleOf := Int

/-- `multipleOf.Validate` (utils.go lines 212-226).  The remainder
`n % int64(m)` is the Go truncated remainder; it panics at runtime when the
divisor is zero, which is modelled by `none`. -/
def multipleOf.Validate (m : multipleOf) (v : GoValue) : Option (List ValidationError) :=
  match normalizeNumber v with
  | .error msg => some [⟨msg⟩]
  | .ok w =>
    match w with
    | .vInt n =>
      if m = 0 then none
      else
        some (if Int.tmod n m ≠ 0 then
          [⟨"Value must be a multiple of " ++ toString m ++ "."⟩] else [])
    | _ => some []

/-- `multipleOf.UnmarshalJSON` (utils.go lines 228-235): decodes any JSON
integer literal in the signed 64-bit range, with no check against zero. -/
def multipleOf.UnmarshalJSON (b : GoValue) : Except String multipleOf :=
  match b with
  | .vNumber lit =>
    match jsonInt64? lit with
    | some n => .ok n
    | none => .error "json: cannot unmarshal number into Go value of type int64"
  | _ => .error "json: cannot unmarshal value into Go value of type int64"

/-- `Schema` from jsonschema.go: a list of keyword validator closures. -/
structure Schema where
  Validators : List (GoValue → List ValidationError)

/-- Modelled from the spec: `normalizeType` (called by `Schema.Validate`,
jsonschema.go line 19) is not present under src/.  Per the spec the
instance arrives already decoded into the generic value model, on which the
normalization is the identity. -/
def normalizeType (v : GoValue) : GoValue := v

/-- `Schema.Validate` (jsonschema.go lines 18-25): run every installed
validator in order and concatenate the error lists. -/
def Schema.Validate (s : Schema) (dataStruct : GoValue) : List ValidationError :=
  let data := normalizeType dataStruct
  s.Validators.foldl (fun valErrs validator => valErrs ++ validator data) []

/-- The `patternProperties` keyword validator (utils.go lines 594-599).
Compiled regular expressions are modelled by their matching functions
`String → Bool`; `object` maps each pattern source to its matcher and
`EmbeddedSchemas` maps it to its schema, exactly as `UnmarshalJSON` builds
both from the same keys. -/
structure patternProperties where
  EmbeddedSchemas : List (String × Schema)
  object : List (String × (String → Bool))
  propertiesIsNeighbor : Bool

/-- Go map indexing `EmbeddedSchemas[key]`; in the source `object` and
`EmbeddedSchemas` always carry the same keys (both are filled by
`UnmarshalJSON`), so the default is never reached on values built there. -/
def lookupSchema (l : List (String × Schema)) (k : String) : Schema :=
  match List.lookup k l with
  | some s => s
  | none => ⟨[]⟩

/-- `patternProperties.Validate` (utils.go lines 601-620): nothing when a
sibling `properties` keyword took over, otherwise the schema of every
matching pattern is applied to every matching member value. -/
def patternProperties.Validate (p : patternProperties) (v : GoValue) : List ValidationError :=
  if p.propertiesIsNeighbor then []
  else
    match v with
    | .vObj data =>
      data.foldl (fun valErrs kv =>
        p.object.foldl (fun acc keyval =>
          if keyval.2 kv.1 then
            acc ++ (lookupSchema p.EmbeddedSchemas keyval.1).Validate kv.2
          else acc) valErrs) []
    | _ => []

/-- `patternProperties.SetSchema` (utils.go lines 622-627): record whether a
sibling `properties` keyword exists. -/
def patternProperties.SetSchema (p : patternProperties) (v : List (String × GoValue)) :
    patternProperties :=
  if (List.lookup "properties" v).isSome then { p with propertiesIsNeighbor := true }
  else p

/-- The `properties` keyword validator (utils.go lines 646-651).  The source
field `patternProperties` is named `patternProps` here because the source
name would shadow the `patternProperties` type inside the namespace. -/
structure properties where
  EmbeddedSchemas : List (String × Schema)
  patternProps : Option patternProperties
  additionalPropertiesBool : Bool
  additionalPropertiesObject : Option Schema

/-- The inner pattern loop of `properties.Validate` (utils.go lines
666-673), threading the `(valErrs, match)` state over the pattern map. -/
def properties.patternLoop (ES : List (String × Schema)) (dataKey : String) (dataVal : GoValue) :
    List (String × (String → Bool)) → List ValidationError × Bool →
      List ValidationError × Bool
  | [], st => st
  | keyval :: rest, st =>
    if keyval.2 dataKey then
      properties.patternLoop ES dataKey dataVal rest
        (st.1 ++ (lookupSchema ES keyval.1).Validate dataVal, true)
    else properties.patternLoop ES dataKey dataVal rest st

/-- The inner pattern loop run over `p.patternProperties`. -/
def properties.patternStep (pp : patternProperties) (dataKey : String) (dataVal : GoValue)
    (st : List ValidationError × Bool) : List ValidationError × Bool :=
  properties.patternLoop pp.EmbeddedSchemas dataKey dataVal pp.object st

/-- One iteration of the `properties.Validate` member loop (utils.go lines
659-684).  The last branch models the source line
`valErrs = append(...)` at utils.go line 682 — a ONE-argument `append`,
which REPLACES the accumulated list with the single
"Additional properties are not allowed" error instead of appending it. -/
def properties.step (p : properties) (valErrs : List ValidationError) (kv : String × GoValue) :
    List ValidationError :=
  let st0 :=
    match List.lookup kv.1 p.EmbeddedSchemas with
    | some schema => (valErrs ++ schema.Validate kv.2, true)
    | none => (valErrs, false)
  let st1 :=
    match p.patternProps with
    | some pp => properties.patternStep pp kv.1 kv.2 st0
    | none => st0
  if st1.2 then st1.1
  else
    match p.additionalPropertiesObject with
    | some s => st1.1 ++ s.Validate kv.2
    | none =>
      if !p.additionalPropertiesBool then
        [⟨"Additional properties aren\x27t allowed"⟩]
      else st1.1

/-- `properties.Validate` (utils.go lines 653-686). -/
def properties.Validate (p : properties) (v : GoValue) : List ValidationError :=
  match v with
  | .vObj dataMap => dataMap.foldl (properties.step p) []
  | _ => []

/-- `properties.GetNeighboringSchemas` (utils.go lines 692-702): absorb the
sibling `patternProperties` validator when present.  The argument models
the result of looking up the node named "patternProperties" and
type-asserting its validator. -/
def properties.GetNeighboringSchemas (p : properties) (pp : Option patternProperties) :
    properties :=
  match pp with
  | some v => { p with patternProps := some v }
  | none => p

/-- The `items` keyword validator (utils.go lines 390-396). -/
structure items where
  schema : Option Schema
  schemaSlice : Option (List Schema)
  additionalAllowed : Bool
  additionalItems : Option Schema

/-- The tuple-mode loop of `items.Validate` (utils.go lines 409-421),
with `pos` the running index.  The final branch models the immediate
`return` of the single error in the source — it abandons the accumulated errors and
the remaining elements.  (The guard `pos <= len(slice)-1` is evaluated on
Go ints, hence the `Int` cast.) -/
def items.tupleLoop (i : items) (sl : List Schema) :
    Nat → List GoValue → List ValidationError → List ValidationError
  | _, [], valErrs => valErrs
  | pos, value :: rest, valErrs =>
    if (pos : Int) ≤ (sl.length : Int) - 1 then
      items.tupleLoop i sl (pos + 1) rest (valErrs ++ (sl.getD pos ⟨[]⟩).Validate value)
    else if i.additionalAllowed then
      match i.additionalItems with
      | none => items.tupleLoop i sl (pos + 1) rest valErrs
      | some s => items.tupleLoop i sl (pos + 1) rest (valErrs ++ s.Validate value)
    else [⟨"Additional items aren\x27t allowed."⟩]

/-- `items.Validate` (utils.go lines 398-424). -/
def items.Validate (i : items) (v : GoValue) : List ValidationError :=
  match v with
  | .vArr instances =>
    match i.schema with
    | some s => instances.foldl (fun valErrs value => valErrs ++ s.Validate value) []
    | none =>
      match i.schemaSlice with
      | some sl => items.tupleLoop i sl 0 instances []
      | none => []
  | _ => []

/-- `items.SetSchema` (utils.go lines 426-436): additional items default to
allowed; a boolean sibling `additionalItems` overrides, any other value is
ignored (the `json.Unmarshal` error is discarded). -/
def items.SetSchema (i : items) (v : List (String × GoValue)) : items :=
  let i1 := { i with additionalAllowed := true }
  match List.lookup "additionalItems" v with
  | some (.vBool b) => { i1 with additionalAllowed := b }
  | _ => i1

/-- Modelled from the spec: the constructor `Minimum` called by
`Schema.UnmarshalJSON` (jsonschema.go line 39) is declared but not defined
under src/.  Per the spec it wraps the `minimum` keyword validator built
from the raw fragment (a `json.Number` literal, since the document was
decoded with `UseNumber`); no link pass runs at this entry point, so the
exclusive flag keeps its zero value `false`. -/
def MinimumCtor (raw : GoValue) : GoValue → List ValidationError :=
  match raw with
  | .vNumber lit => minimum.Validate ⟨lit, false⟩
  | _ => fun _ => []

/-- Modelled from the spec: recursive schema decode used by the
`Properties` constructor.  The fuel argument only bounds the nesting depth
of the document (any fuel at least the `sizeOf` of the document gives the
same result as unbounded recursion); it mirrors jsonschema.go lines 27-45,
installing validators only for `minimum` and `properties`. -/
def decodeSchemaFuel : Nat → GoValue → Schema
  | 0, _ => ⟨[]⟩
  | fuel + 1, .vObj kvs =>
    ⟨(match List.lookup "minimum" kvs with
      | some mn => [MinimumCtor mn]
      | none => []) ++
     (match List.lookup "properties" kvs with
      | some (.vObj pkvs) =>
        [properties.Validate
          ⟨pkvs.map (fun kv => (kv.1, decodeSchemaFuel fuel kv.2)), none, true, none⟩]
      | some _ => [fun _ => []]
      | none => [])⟩
  | _ + 1, _ => ⟨[]⟩

mutual

/-- Executable structural size of a `GoValue`, used only to supply enough
fuel to the recursive schema decode (it strictly dominates nesting
depth). -/
def goSize : GoValue → Nat
  | .vArr xs => 1 + goSizeList xs
  | .vObj kvs => 1 + goSizeKVs kvs
  | _ => 1

/-- Size of a list of values. -/
def goSizeList : List GoValue → Nat
  | [] => 0
  | x :: xs => goSize x + goSizeList xs

/-- Size of an association list of values. -/
def goSizeKVs : List (String × GoValue) → Nat
  | [] => 0
  | (_, x) :: kvs => goSize x + goSizeKVs kvs

end

/-- Modelled from the spec: the constructor `Properties` called by
`Schema.UnmarshalJSON` (jsonschema.go line 42) is declared but not defined
under src/.  Per the spec it builds one embedded schema per declared
property name; the sibling-linking pass does not run at this entry point,
so no `patternProperties` is absorbed and additional properties default to
allowed. -/
def PropertiesCtor (raw : GoValue) : GoValue → List ValidationError :=
  match raw with
  | .vObj pkvs =>
    properties.Validate
      ⟨pkvs.map (fun kv => (kv.1, decodeSchemaFuel (goSize kv.2) kv.2)), none, true, none⟩
  | _ => fun _ => []

/-- `Schema.UnmarshalJSON` (jsonschema.go lines 27-45) on the decoded
document: fails unless the document is an object, then installs a
validator for `minimum` and one for `properties` when those keys are
present — and nothing for any other key. -/
def Schema.UnmarshalJSON (bts : GoValue) : Except String Schema :=
  match bts with
  | .vObj schemaMap =>
    .ok ⟨(match List.lookup "minimum" schemaMap with
          | some mn => [MinimumCtor mn]
          | none => []) ++
         (match List.lookup "properties" schemaMap with
          | some pr => [PropertiesCtor pr]
          | none => [])⟩
  | _ => .error "Schema must be of the type `map[string]interface\x7b\x7d`."

/-- Decode a document and validate an instance against the result (used to
state claims about the decode pipeline; a failed decode validates
nothing). -/
def validateAgainstDoc (doc : GoValue) (v : GoValue) : List ValidationError :=
  match Schema.UnmarshalJSON doc with
  | .ok s => s.Validate v
  | .error _ => []

/-- `properties.SetSchema` (utils.go lines 704-715): additional properties
default to allowed; a boolean raw sibling `additionalProperties` overrides
the flag (non-boolean values leave it `true`, the `Unmarshal` error being
ignored), and a fragment that decodes as a schema is stored as
`additionalPropertiesObject` (otherwise that field is reset to `nil`). -/
def properties.SetSchema (p : properties) (v : List (String × GoValue)) : properties :=
  let p1 := { p with additionalPropertiesBool := true }
  match List.lookup "additionalProperties" v with
  | none => p1
  | some addVal =>
    let b :=
      match addVal with
      | .vBool bv => bv
      | _ => p1.additionalPropertiesBool
    let obj :=
      match Schema.UnmarshalJSON addVal with
      | .ok s => some s
      | .error _ => none
    { p1 with additionalPropertiesBool := b, additionalPropertiesObject := obj }

/-- The decoded form of the `dependencies` keyword validator (utils.go lines
470-475). -/
structure dependencies where
  EmbeddedSchemas : List (String × Schema)
  propertyDeps : List (String × List String)

/-- Go `json.Unmarshal` into `[]string`: succeeds on an array whose
elements are all strings (and on JSON `null`, which decodes to a nil slice
without error). -/
def stringListOf : GoValue → Option (List String)
  | .vNull => some []
  | .vArr elems =>
    elems.foldr
      (fun e acc =>
        match e, acc with
        | .vStr s, some l => some (s :: l)
        | _, _ => none)
      (some [])
  | _ => none

/-- `dependencies.UnmarshalJSON` (utils.go lines 508-540): the raw value of
every key is tried as a schema and as a string list; keys where both fail are
silently skipped, and the decode errors only when NO key succeeded either
way. -/
def dependencies.UnmarshalJSON (b : GoValue) : Except String dependencies :=
  match b with
  | .vObj c =>
    let es := c.filterMap (fun kv =>
      match Schema.UnmarshalJSON kv.2 with
      | .ok s => some (kv.1, s)
      | .error _ => none)
    let pd := c.filterMap (fun kv =>
      (stringListOf kv.2).map (fun l => (kv.1, l)))
    if pd.length = 0 ∧ es.length = 0 then
      .error "no valid schema or property dependency validators"
    else .ok ⟨es, pd⟩
  | _ => .error "json: cannot unmarshal value into map[string]json.RawMessage"

/-- The `oneOf` keyword validator (utils.go lines 838-840): embedded
schemas keyed by their decimal index. -/
structure oneOf where
  EmbeddedSchemas : List (String × Schema)

/-- `oneOf.Validate` (utils.go lines 842-854): count the branches whose
validation returns nil and fail unless exactly one passed. -/
def oneOf.Validate (o : oneOf) (v : GoValue) : List ValidationError :=
  let succeeded := o.EmbeddedSchemas.countP (fun kv => kv.2.Validate v == [])
  if succeeded ≠ 1 then
    [⟨"Validation passed for " ++ toString succeeded ++ " schemas in \x27oneOf\x27."⟩]
  else []

/-- `type typeValidator map[string]bool` (utils.go line 873): its
`UnmarshalJSON` stores `true` under every declared name, so the map is
fully described by its key list (in decode order). -/
abbrev typeValidator := List String

/-- The kind string `s` computed by the type switch of
`typeValidator.Validate` (utils.go lines 877-899): a `json.Number` is
`integer` exactly when its literal carries no `.` character; `float64`
values are always `number`; a value of a type with no case (e.g. `int64`)
leaves `s` empty. -/
def goKind : GoValue → String
  | .vStr _ => "string"
  | .vBool _ => "boolean"
  | .vNull => "null"
  | .vArr _ => "array"
  | .vObj _ => "object"
  | .vNumber lit => if lit.data.contains '.' then "number" else "integer"
  | .vFloat _ => "number"
  | _ => ""

/-- The `fmt` rendering of a `[]string` (space-separated in brackets), used
in the type error message; the order models the map iteration order. -/
def fmtStrSlice (l : List String) : String :=
  "[" ++ String.intercalate " " l ++ "]"

/-- `typeValidator.Validate` (utils.go lines 875-917): membership check,
widened so the `number` name also accepts `integer`-kind instances. -/
def typeValidator.Validate (t : typeValidator) (v : GoValue) : List ValidationError :=
  let s := goKind v
  let ok := t.contains s
  let ok2 := if !ok && s == "integer" then t.contains "number" else ok
  if !ok2 then
    [⟨"Value must be one of these types: " ++ fmtStrSlice t ++ "."⟩]
  else []

/-- The empty schema: no validators, accepts everything. -/
def emptySchema : Schema := ⟨[]⟩

/-- The schema decoded from the document minimum: 5. -/
def minSchema5 : Schema := ⟨[minimum.Validate ⟨"5", false⟩]⟩

/-- The schema decoded from the document minimum: 7. -/
def minSchema7 : Schema := ⟨[minimum.Validate ⟨"7", false⟩]⟩

/-- The `minimum` validator decoded from the document
minimum: 1, exclusiveMinimum: true, after the link pass runs `SetSchema`
on the raw sibling fragments (the pass itself is modelled from the spec;
the `SetSchema` body is from the source). -/
def minExclusiveDoc : minimum :=
  minimum.SetSchema ⟨"1", false⟩
    [("minimum", .vNumber "1"), ("exclusiveMinimum", .vBool true)]

/-- The `properties` validator decoded from the document
properties: (a: (minimum: 5)), additionalProperties: false, after the
link pass. -/
def propsNoAdditional : properties :=
  properties.SetSchema ⟨[("a", minSchema5)], none, false, none⟩
    [("properties", .vObj [("a", .vObj [("minimum", .vNumber "5")])]),
     ("additionalProperties", .vBool false)]

/-- The `items` validator decoded from the document
items: [(minimum: 5)], additionalItems: false, after the link pass. -/
def itemsTupleNoAdditional : items :=
  items.SetSchema ⟨none, some [minSchema5], false, none⟩
    [("items", .vArr [.vObj [("minimum", .vNumber "5")]]),
     ("additionalItems", .vBool false)]

/-- Claim C1 (code_bug evidence): for the `minimum` validator decoded from
the literal 1, every integer or float instance strictly below 1 is
rejected (the part of the claim that holds), but the code also rejects the
instance 1 when the exclusive flag is false — the boundary formula
`min > n || !exclusive && min == n` was taken from `maximum`, where
`isLarger` means VALID, while `minimum.Validate` errors when it is true —
and `SetSchema` looks up the sibling under the lowercase key
`exclusiveminimum`, so the document key `exclusiveMinimum: true` leaves the
flag false; with the flag actually true the instance 1 is accepted. -/
theorem C1_minimum_boundary :
    minimum.Validate ⟨"1", false⟩ (.vInt 0) = [⟨"Value must be larger than 1."⟩] ∧
    minimum.Validate ⟨"1", false⟩ (.vFloat ⟨5, -1⟩) = [⟨"Value must be larger than 1."⟩] ∧
    minExclusiveDoc.exclusive = false ∧
    minimum.Validate minExclusiveDoc (.vInt 1) = [⟨"Value must be larger than 1."⟩] ∧
    minimum.Validate ⟨"1", true⟩ (.vInt 1) = [] := by
  decide

/-- Claim C2 (code_bug evidence): the error a key or position produces in
isolation is discarded as soon as a later disallowed additional property
(or additional array item) is hit — `properties.Validate` replaces the
accumulated list (one-argument `append`, utils.go line 682) and
`items.Validate` returns immediately (utils.go line 419). -/
theorem C2_error_discard :
    properties.Validate propsNoAdditional (.vObj [("a", .vInt 1)]) =
      [⟨"Value must be larger than 5."⟩] ∧
    properties.Validate propsNoAdditional (.vObj [("a", .vInt 1), ("b", .vInt 1)]) =
      [⟨"Additional properties aren\x27t allowed"⟩] ∧
    items.Validate itemsTupleNoAdditional (.vArr [.vInt 1]) =
      [⟨"Value must be larger than 5."⟩] ∧
    items.Validate itemsTupleNoAdditional (.vArr [.vInt 1, .vInt 1]) =
      [⟨"Additional items aren\x27t allowed."⟩] := by
  decide

/-- Numeric value carried by a Go numeric source value (exact decimal). -/
def goNumVal : GoValue → Option JsonNum
  | .vInt n => some ⟨n, 0⟩
  | .vUintSmall n => some ⟨n, 0⟩
  | .vUint64 n => some ⟨n, 0⟩
  | .vFloat32 f => some f
  | .vFloat f => some f
  | _ => none

/-- Is the value in the canonical two-case domain (`int64` or `float64`)? -/
def isCanonicalNum : GoValue → Bool
  | .vInt _ => true
  | .vFloat _ => true
  | _ => false

/-- Is the value of one of the Go numeric types that the switch of
`normalizeNumber` lists? -/
def isGoNumericSource : GoValue → Bool
  | .vInt _ => true
  | .vUintSmall _ => true
  | .vUint64 _ => true
  | .vFloat32 _ => true
  | .vFloat _ => true
  | _ => false

/-- Claim C9 (counterexample): the value 5 is well inside the signed 64-bit
range — arriving as a `uint32` it normalizes losslessly to `int64` — yet
the same value arriving as a `uint64` is rejected: `normalizeNumber` fails
on EVERY `uint64`, not only on those exceeding the signed range as the
claim states. -/
theorem C9_counterexample :
    (5 : Int) ≤ 9223372036854775807 ∧
    normalizeNumber (.vUintSmall 5) = .ok (.vInt 5) ∧
    normalizeNumber (.vUint64 5) = .error "uint64 is not a supported type." :=
  ⟨by decide, rfl, rfl⟩

/-- Claim C9 (amended): `normalizeNumber` fails exactly on `uint64` inputs;
on success the numeric value is preserved and every numeric source type
lands in the canonical `int64`/`float64` domain; and the keyword
validators `minimum`, `maximum` and `multipleOf` surface the failure as a
single validation error rather than skipping the instance. -/
theorem C9_normalization :
    (∀ v : GoValue,
      (((normalizeNumber v).isOk = false) ↔ ∃ n, v = GoValue.vUint64 n) ∧
      ∀ w, normalizeNumber v = .ok w →
        goNumVal w = goNumVal v ∧
          (isGoNumericSource v = true → isCanonicalNum w = true)) ∧
    (∀ (m : minimum) (n : Nat),
      minimum.Validate m (.vUint64 n) = [⟨"uint64 is not a supported type."⟩]) ∧
    (∀ (m : maximum) (n : Nat),
      maximum.Validate m (.vUint64 n) = [⟨"uint64 is not a supported type."⟩]) ∧
    (∀ (d : multipleOf) (n : Nat),
      multipleOf.Validate d (.vUint64 n) = some [⟨"uint64 is not a supported type."⟩]) := by
  refine ⟨?_, ?_, ?_, ?_⟩
  · intro v
    constructor
    · cases v <;> simp [normalizeNumber, Except.isOk, Except.toBool]
    · intro w hw
      cases v <;> simp_all [normalizeNumber, goNumVal, isGoNumericSource, isCanonicalNum] <;>
        subst hw <;> simp [goNumVal, isCanonicalNum]
  · intro m n; rfl
  · intro m n; rfl
  · intro d n; rfl

/-- Witness for the hypotheses of `C9_normalization`: the preservation part
applied at the concrete input `uint32 3`. -/
theorem C9_witness :
    goNumVal (.vInt 3) = goNumVal (.vUintSmall 3) ∧ isCanonicalNum (.vInt 3) = true :=
  ⟨((C9_normalization.1 (.vUintSmall 3)).2 (.vInt 3) rfl).1,
   ((C9_normalization.1 (.vUintSmall 3)).2 (.vInt 3) rfl).2 rfl⟩

/-- Claim C10: the remainder in `multipleOf.Validate` cannot panic when the
decoded divisor is nonzero (for any instance value); with divisor zero and
an integer-normalizing instance the modelled computation does panic; and
`multipleOf.UnmarshalJSON` accepts the schema literal 0 without complaint,
so the decoder indeed does not enforce the nonzero precondition. -/
theorem C10_multipleOf_division_by_zero :
    (∀ (v : GoValue) (d : multipleOf), d ≠ 0 → (multipleOf.Validate d v).isSome = true) ∧
    multipleOf.Validate 0 (.vInt 9) = none ∧
    multipleOf.UnmarshalJSON (.vNumber "0") = .ok 0 := by
  refine ⟨?_, rfl, rfl⟩
  intro v d hd
  unfold multipleOf.Validate
  cases hn : normalizeNumber v with
  | error msg => simp
  | ok w => cases w <;> simp [hd]

/-- Witness for the hypothesis of `C10_multipleOf_division_by_zero`:
divisor 3 on instance 9. -/
theorem C10_witness : (multipleOf.Validate 3 (.vInt 9)).isSome = true :=
  C10_multipleOf_division_by_zero.1 (.vInt 9) 3 (by decide)

/-- Looking up a key that a filter predicate always keeps is unaffected by
the filter. -/
theorem lookup_filter_keep {β : Type} (k : String) (p : String × β → Bool)
    (hp : ∀ kv : String × β, kv.1 = k → p kv = true) :
    ∀ l : List (String × β), List.lookup k (l.filter p) = List.lookup k l := by
  intro l
  induction l with
  | nil => rfl
  | cons kv t ih =>
    by_cases hk : k = kv.1
    · have hkeep : p kv = true := hp kv hk.symm
      simp [List.filter, hkeep, List.lookup, hk]
    · cases hkeep : p kv <;>
        simp [List.filter, hkeep, List.lookup, beq_false_of_ne hk, ih]

/-- Claim C3: `Schema.UnmarshalJSON` installs validators only for the
keywords `minimum` and `properties`: validating against any document gives
exactly the result of validating against the document restricted to those
two keys, and a document containing neither accepts every instance. -/
theorem C3_only_minimum_properties :
    ∀ (kvs : List (String × GoValue)) (v : GoValue),
    validateAgainstDoc (.vObj kvs) v =
      validateAgainstDoc
        (.vObj (kvs.filter (fun kv => kv.1 == "minimum" || kv.1 == "properties"))) v ∧
    (List.lookup "minimum" kvs = none → List.lookup "properties" kvs = none →
      validateAgainstDoc (.vObj kvs) v = []) := by
  intro kvs v
  have hmin : List.lookup "minimum"
      (kvs.filter (fun kv => kv.1 == "minimum" || kv.1 == "properties")) =
      List.lookup "minimum" kvs :=
    lookup_filter_keep _ _ (by intro kv h; simp [h]) kvs
  have hprop : List.lookup "properties"
      (kvs.filter (fun kv => kv.1 == "minimum" || kv.1 == "properties")) =
      List.lookup "properties" kvs :=
    lookup_filter_keep _ _ (by intro kv h; simp [h]) kvs
  constructor
  · simp only [validateAgainstDoc, Schema.UnmarshalJSON, hmin, hprop]
  · intro h1 h2
    simp [validateAgainstDoc, Schema.UnmarshalJSON, h1, h2, Schema.Validate]

/-- Witness for the hypotheses of `C3_only_minimum_properties`: a document
whose only keywords are `type` and `required` validates nothing. -/
theorem C3_witness :
    validateAgainstDoc
      (.vObj [("type", .vStr "string"), ("required", .vArr [.vStr "a"])]) (.vInt 0) = [] :=
  (C3_only_minimum_properties
    [("type", .vStr "string"), ("required", .vArr [.vStr "a"])] (.vInt 0)).2 rfl rfl

/-- The compiled matcher of the regular expression `^a$`. -/
def matcherExactA : String → Bool := fun s => s == "a"

/-- The `patternProperties` validator decoded from the document
properties: (), patternProperties: (pattern `^a$` to minimum: 5),
additionalProperties: false — before the link pass. -/
def ppBoth : patternProperties :=
  ⟨[("^a$", minSchema5)], [("^a$", matcherExactA)], false⟩

/-- The raw sibling fragments of that document. -/
def bothSiblings : List (String × GoValue) :=
  [("properties", .vObj []),
   ("patternProperties", .vObj [("^a$", .vObj [("minimum", .vNumber "5")])]),
   ("additionalProperties", .vBool false)]

/-- `ppBoth` after its link pass: it has seen the sibling `properties`. -/
def ppBothLinked : patternProperties := patternProperties.SetSchema ppBoth bothSiblings

/-- The sibling `properties` validator after its link pass: it absorbed
`ppBothLinked` and the `additionalProperties: false` fragment. -/
def propsBothLinked : properties :=
  properties.SetSchema
    (properties.GetNeighboringSchemas ⟨[], none, false, none⟩ (some ppBothLinked))
    bothSiblings

/-- Claim C4 (code_bug evidence): with a sibling `properties` present the
`patternProperties` validator indeed defers — its `Validate` returns the
empty list for EVERY instance — and a key matched by a pattern is reported
through the merged `properties` logic; but "exactly once" fails: a later
disallowed additional property wipes the accumulated list (the
one-argument `append` of utils.go line 682), so the error of the
pattern-matched key is emitted zero times. -/
theorem C4_patternProperties_defer :
    ppBothLinked.propertiesIsNeighbor = true ∧
    (∀ v, patternProperties.Validate ppBothLinked v = []) ∧
    properties.Validate propsBothLinked (.vObj [("a", .vInt 1)]) =
      [⟨"Value must be larger than 5."⟩] ∧
    properties.Validate propsBothLinked (.vObj [("a", .vInt 1), ("z", .vInt 1)]) =
      [⟨"Additional properties aren\x27t allowed"⟩] := by
  have hflag : ppBothLinked.propertiesIsNeighbor = true := by decide
  refine ⟨hflag, ?_, by decide, by decide⟩
  intro v
  unfold patternProperties.Validate
  simp [hflag]

/-- Claim C5: `oneOf.Validate` accepts exactly when exactly one embedded
schema validates the instance with no errors; otherwise it returns the one
error that reports the number of passing branches. -/
theorem C5_oneOf_exactly_one :
    ∀ (o : oneOf) (v : GoValue),
    (oneOf.Validate o v = [] ↔
      (o.EmbeddedSchemas.filter (fun kv => kv.2.Validate v == [])).length = 1) ∧
    ((o.EmbeddedSchemas.filter (fun kv => kv.2.Validate v == [])).length ≠ 1 →
      oneOf.Validate o v =
        [⟨"Validation passed for " ++
            toString (o.EmbeddedSchemas.filter (fun kv => kv.2.Validate v == [])).length ++
            " schemas in \x27oneOf\x27."⟩]) := by
  intro o v
  have he : oneOf.Validate o v =
      (if (o.EmbeddedSchemas.filter (fun kv => kv.2.Validate v == [])).length ≠ 1 then
        [⟨"Validation passed for " ++
            toString (o.EmbeddedSchemas.filter (fun kv => kv.2.Validate v == [])).length ++
            " schemas in \x27oneOf\x27."⟩]
      else []) := by
    simp only [oneOf.Validate, List.countP_eq_length_filter]
  rw [he]
  by_cases h : (o.EmbeddedSchemas.filter (fun kv => kv.2.Validate v == [])).length = 1
  · refine ⟨⟨fun _ => h, fun _ => ?_⟩, fun hne => absurd h hne⟩
    rw [if_neg (fun hn => hn h)]
  · refine ⟨⟨fun hemp => ?_, fun h1 => absurd h1 h⟩, fun _ => ?_⟩
    · rw [if_pos h] at hemp
      simp at hemp
    · rw [if_pos h]

/-- Witness for the hypothesis of `C5_oneOf_exactly_one`: two branches both
pass, so the count-2 error is produced. -/
theorem C5_witness :
    oneOf.Validate ⟨[("0", emptySchema), ("1", emptySchema)]⟩ .vNull =
      [⟨"Validation passed for 2 schemas in \x27oneOf\x27."⟩] :=
  ((C5_oneOf_exactly_one ⟨[("0", emptySchema), ("1", emptySchema)]⟩ .vNull).2
    (by decide)).trans (by decide)

/-- Spec-side notion (stated from the words of the claim): the exact decimal
value carries no fractional component. -/
def jnIsIntegral (f : JsonNum) : Bool :=
  if 0 ≤ f.exp10 then true else Int.tmod f.mant (10 ^ (-f.exp10).toNat) == 0

/-- Claim C6 (counterexample): the instance `1.0` — a numeric instance
whose value is exactly 1 and so carries no fractional component — is
classified as `number`, not `integer` (the code tests whether the LITERAL
contains a dot, not whether the value is integral), and is therefore
rejected by the type validator decoded from `integer`. -/
theorem C6_counterexample :
    jsonFloat? "1.0" = some ⟨10, -1⟩ ∧
    jnIsIntegral ⟨10, -1⟩ = true ∧
    goKind (.vNumber "1.0") = "number" ∧
    typeValidator.Validate ["integer"] (.vNumber "1.0") =
      [⟨"Value must be one of these types: [integer]."⟩] := by
  decide

/-- Claim C6 (amended): the classification of a numeric instance is
`integer` exactly when the `json.Number` LITERAL contains no dot (`float64`
instances are always `number`); acceptance holds iff the computed kind is
among the permitted names or it is `integer` while `number` is permitted
(so `number` accepts integer-kind instances but not conversely), and any
mismatch yields exactly one error. -/
theorem C6_type_kind_characterization :
    ∀ (t : typeValidator) (v : GoValue),
    (typeValidator.Validate t v = [] ↔
      (goKind v ∈ t ∨ (goKind v = "integer" ∧ "number" ∈ t))) ∧
    (typeValidator.Validate t v ≠ [] → (typeValidator.Validate t v).length = 1) := by
  intro t v
  by_cases h1 : goKind v ∈ t <;> by_cases h2 : goKind v = "integer" <;>
    by_cases h3 : "number" ∈ t <;>
      simp_all [typeValidator.Validate, List.elem_iff, h1, h2, h3]

/-- Witness for the hypothesis of `C6_type_kind_characterization`: the
mismatch at the counterexample instance produces exactly one error. -/
theorem C6_witness :
    (typeValidator.Validate ["integer"] (.vNumber "1.0")).length = 1 :=
  (C6_type_kind_characterization ["integer"] (.vNumber "1.0")).2 (by decide)

/-- Claim C7 (counterexample): a `dependencies` document in which the key
`bad` maps to the number 5 — a value that decodes neither as a schema nor
as a list of property names — still decodes WITHOUT error, because the key
`good` succeeded; malformed keys are silently skipped rather than aborting
the schema decode. -/
theorem C7_counterexample :
    (Schema.UnmarshalJSON (.vNumber "5")).isOk = false ∧
    stringListOf (.vNumber "5") = none ∧
    (dependencies.UnmarshalJSON (.vObj [("good", .vObj []), ("bad", .vNumber "5")])).isOk
      = true := by
  refine ⟨rfl, rfl, ?_⟩
  rfl

/-- Claim C7 (amended): `dependencies.UnmarshalJSON` on an object fails
exactly when NO key has a value that decodes as a schema or as a string list; a key
whose value is neither is skipped whenever any other key succeeds. -/
theorem C7_dependencies_decode :
    ∀ (c : List (String × GoValue)),
    (dependencies.UnmarshalJSON (.vObj c)).isOk = true ↔
      ∃ kv ∈ c, (Schema.UnmarshalJSON kv.2).isOk = true ∨ (stringListOf kv.2).isSome = true := by
  intro c
  simp only [dependencies.UnmarshalJSON]
  by_cases hc :
      (c.filterMap (fun kv => (stringListOf kv.2).map (fun l => (kv.1, l)))).length = 0 ∧
      (c.filterMap (fun kv =>
        match Schema.UnmarshalJSON kv.2 with
        | .ok s => some (kv.1, s)
        | .error _ => none)).length = 0
  · rw [if_pos hc]
    simp only [Except.isOk, Except.toBool]
    constructor
    · intro h
      cases h
    · rintro ⟨kv, hmem, hor⟩
      rcases hor with hok | hsl
      · have hes := hc.2
        rw [List.length_eq_zero, List.filterMap_eq_nil_iff] at hes
        have h2 := hes kv hmem
        revert h2
        cases hS : Schema.UnmarshalJSON kv.2 <;>
          simp_all [Except.isOk, Except.toBool]
      · have hpd := hc.1
        rw [List.length_eq_zero, List.filterMap_eq_nil_iff] at hpd
        have h2 := hpd kv hmem
        cases hsl2 : stringListOf kv.2 <;> simp_all
  · rw [if_neg hc]
    simp only [Except.isOk, Except.toBool]
    constructor
    · intro _
      rcases not_and_or.mp hc with hpd | hes
      · rw [List.length_eq_zero, List.filterMap_eq_nil_iff] at hpd
        push_neg at hpd
        obtain ⟨kv, hmem, hne⟩ := hpd
        refine ⟨kv, hmem, Or.inr ?_⟩
        cases h : stringListOf kv.2
        · simp [h] at hne
        · simp
      · rw [List.length_eq_zero, List.filterMap_eq_nil_iff] at hes
        push_neg at hes
        obtain ⟨kv, hmem, hne⟩ := hes
        refine ⟨kv, hmem, Or.inl ?_⟩
        cases h : Schema.UnmarshalJSON kv.2
        · simp [h] at hne
        · simp [h, Except.isOk, Except.toBool]
    · intro _
      trivial

/-- The inner pattern loop only appends to the error accumulator: running
it from `(e, b)` yields `e ++` the result of running it from `([], b)`. -/
theorem patternLoop_split (ES : List (String × Schema)) (k : String) (val : GoValue) :
    ∀ (obj : List (String × (String → Bool))) (e : List ValidationError) (b : Bool),
    properties.patternLoop ES k val obj (e, b) =
      (e ++ (properties.patternLoop ES k val obj ([], b)).1,
       (properties.patternLoop ES k val obj ([], b)).2) := by
  intro obj
  induction obj with
  | nil => intro e b; simp [properties.patternLoop]
  | cons keyval rest ih =>
    intro e b
    by_cases h : keyval.2 k = true
    · simp only [properties.patternLoop, h, if_true, List.nil_append]
      rw [ih (e ++ (lookupSchema ES keyval.1).Validate val) true,
        ih ((lookupSchema ES keyval.1).Validate val) true]
      simp
    · simp only [properties.patternLoop, h, Bool.false_eq_true, if_false]
      exact ih e b

/-- When additional properties are allowed, one step of the
`properties.Validate` loop only appends to the error accumulator (the
discarding branch of utils.go line 682 is unreachable). -/
theorem properties.step_append (p : properties) (h : p.additionalPropertiesBool = true)
    (acc : List ValidationError) (kv : String × GoValue) :
    properties.step p acc kv = acc ++ properties.step p [] kv := by
  cases hlk : List.lookup kv.1 p.EmbeddedSchemas with
  | none =>
    cases hpp : p.patternProps with
    | none =>
      cases hao : p.additionalPropertiesObject with
      | none => simp [properties.step, hlk, hpp, hao, h]
      | some s => simp [properties.step, hlk, hpp, hao, h]
    | some pp =>
      rcases hq : properties.patternLoop pp.EmbeddedSchemas kv.1 kv.2 pp.object ([], false)
        with ⟨A, B⟩
      have h1 : properties.patternLoop pp.EmbeddedSchemas kv.1 kv.2 pp.object (acc, false) =
          (acc ++ A, B) := by
        rw [patternLoop_split, hq]
      cases hao : p.additionalPropertiesObject with
      | none =>
        cases B <;> simp [properties.step, properties.patternStep, hlk, hpp, hao, h, h1, hq]
      | some s =>
        cases B <;> simp [properties.step, properties.patternStep, hlk, hpp, hao, h, h1, hq]
  | some s0 =>
    cases hpp : p.patternProps with
    | none =>
      cases hao : p.additionalPropertiesObject with
      | none => simp [properties.step, hlk, hpp, hao, h]
      | some s => simp [properties.step, hlk, hpp, hao, h]
    | some pp =>
      rcases hq : properties.patternLoop pp.EmbeddedSchemas kv.1 kv.2 pp.object
          (s0.Validate kv.2, true) with ⟨A, B⟩
      have h1 : properties.patternLoop pp.EmbeddedSchemas kv.1 kv.2 pp.object
          (acc ++ s0.Validate kv.2, true) = (acc ++ A, B) := by
        rw [patternLoop_split]
        rw [patternLoop_split] at hq
        have hA := congrArg Prod.fst hq
        have hB := congrArg Prod.snd hq
        simp only at hA hB
        rw [hB, ← hA]
        simp
      cases hao : p.additionalPropertiesObject with
      | none =>
        cases B <;> simp [properties.step, properties.patternStep, hlk, hpp, hao, h, h1, hq]
      | some s =>
        cases B <;> simp [properties.step, properties.patternStep, hlk, hpp, hao, h, h1, hq]

/-- When additional properties are allowed, the member loop of
`properties.Validate` is the concatenation of the per-member error
lists. -/
theorem properties.validate_flatMap (p : properties) (h : p.additionalPropertiesBool = true) :
    ∀ (l : List (String × GoValue)) (acc : List ValidationError),
    l.foldl (properties.step p) acc = acc ++ l.flatMap (fun kv => properties.step p [] kv) := by
  intro l
  induction l with
  | nil => intro acc; simp
  | cons kv rest ih =>
    intro acc
    rw [List.foldl_cons, ih, properties.step_append p h acc kv]
    simp

/-- The `properties` validator decoded from the document
properties: (a: (minimum: 5), b: (minimum: 7)) with no sibling keywords
(additional properties default to allowed). -/
def propsTwoKeys : properties :=
  properties.SetSchema ⟨[("a", minSchema5), ("b", minSchema7)], none, false, none⟩
    [("properties", .vObj [("a", .vObj [("minimum", .vNumber "5")]),
                           ("b", .vObj [("minimum", .vNumber "7")])])]

/-- The compiled schema holding that single validator. -/
def schemaTwoKeys : Schema := ⟨[properties.Validate propsTwoKeys]⟩

/-- Claim C8 (counterexample): the two association lists are permutations
of each other, i.e. they model the very same Go map, and a Go `range` may
present a map in either order on different calls; yet `Schema.Validate`
returns differently ordered error lists for the two presentations, so two
calls of `Validate(S, v)` need not return identical lists. -/
theorem C8_counterexample :
    ([("a", GoValue.vInt 1), ("b", GoValue.vInt 1)]).Perm
      [("b", GoValue.vInt 1), ("a", GoValue.vInt 1)] ∧
    Schema.Validate schemaTwoKeys (.vObj [("a", .vInt 1), ("b", .vInt 1)]) ≠
      Schema.Validate schemaTwoKeys (.vObj [("b", .vInt 1), ("a", .vInt 1)]) :=
  ⟨List.Perm.swap ("b", GoValue.vInt 1) ("a", GoValue.vInt 1) [], by decide⟩

/-- Claim C8 (amended): validation is a pure function of the schema, the
instance and the map iteration orders chosen by the runtime; when the
schema never hits the discarding additional-properties branch (additional
properties allowed), permuting the iteration order of the instance object
permutes the error list, so repeated calls agree up to order (and on the
empty list exactly); the order itself, however, is not reproducible. -/
theorem C8_perm_invariance :
    ∀ (p : properties) (l₁ l₂ : List (String × GoValue)),
    p.additionalPropertiesBool = true → l₁.Perm l₂ →
    (Schema.Validate ⟨[properties.Validate p]⟩ (.vObj l₁)).Perm
      (Schema.Validate ⟨[properties.Validate p]⟩ (.vObj l₂)) := by
  intro p l₁ l₂ h hperm
  have hS : ∀ l : List (String × GoValue),
      Schema.Validate ⟨[properties.Validate p]⟩ (.vObj l) = properties.Validate p (.vObj l) := by
    intro l
    simp [Schema.Validate, normalizeType]
  rw [hS l₁, hS l₂]
  show (List.foldl (properties.step p) [] l₁).Perm (List.foldl (properties.step p) [] l₂)
  rw [properties.validate_flatMap p h l₁ [], properties.validate_flatMap p h l₂ []]
  simpa using hperm.flatMap_right (fun kv => properties.step p [] kv)

/-- Witness for the hypotheses of `C8_perm_invariance`: the two orderings
of the counterexample instance give lists that are permutations of each
other. -/
theorem C8_witness :
    (Schema.Validate schemaTwoKeys (.vObj [("a", .vInt 1), ("b", .vInt 1)])).Perm
      (Schema.Validate schemaTwoKeys (.vObj [("b", .vInt 1), ("a", .vInt 1)])) :=
  C8_perm_invariance propsTwoKeys _ _ (by decide)
    (List.Perm.swap ("b", GoValue.vInt 1) ("a", GoValue.vInt 1) [])

/-- Witness instantiating the universal part of
`C4_patternProperties_defer` at a concrete instance. -/
theorem C4_witness :
    patternProperties.Validate ppBothLinked (.vObj [("a", .vInt 1)]) = [] :=
  C4_patternProperties_defer.2.1 (.vObj [("a", .vInt 1)])

/-- Witness instantiating `C7_dependencies_decode` at a concrete document:
one property-dependency key suffices for the decode to succeed. -/
theorem C7_witness :
    (dependencies.UnmarshalJSON (.vObj [("k", .vArr [.vStr "b"])])).isOk = true :=
  (C7_dependencies_decode [("k", .vArr [.vStr "b"])]).mpr
    ⟨("k", .vArr [.vStr "b"]), by simp, Or.inr (by decide)⟩
